import Mathlib

/-!
Verification development for the formula engine of this repository.

The engine (source file `part_000`) implements a cost-formula tree class
`Formula` over an external arbitrary-precision decimal type, together with two
purchase utilities `calculateMaxAffordable` and `calculateCost`.

Modelling conventions.
The external numeric substrate (an arbitrary-precision decimal type, out of
scope per the specification) is modelled by `ℚ`.  A reactive computable cell is
modelled by its current value.  Per-node callbacks are stored in the source as
references to module-level functions of the operation registry; two callback
references are `===`-equal exactly when they are the same registry entry, so
each stored callback slot is modelled by an `Option` of a small enumeration of
registry-entry names.  A thrown string exception is modelled by
`Except.error` of that string.

A central fact of this code base: the class declares the private fields
`internalEvaluate`, `internalInvert` and `internalInvertIntegral`, and
`setupFormula` computes values for them, but the constructor body (source
lines 62-77) assigns only `inputs`, `internalHasVariable`,
`innermostVariable`, `internalIntegrate`, `internalIntegrateInner` and
`applySubstitution`.  The three remaining fields are therefore `undefined`
(`none`) on every instance, and every code path dispatching on them takes the
fallback branch.
-/

/-- Registry names for `evaluate` callbacks handed to the constructor by the
factory functions modelled here.  `stepEval` stands for the `evalStep` closure
created inside `Formula.step`. -/
inductive EvalTag : Type where
  | add
  | sub
  | mul
  | pow
  | maxOp
  | stepEval
  deriving DecidableEq

/-- Registry names for `invert` callbacks handed to the constructor by the
factory functions modelled here.  `stepInvert` stands for the `invertStep`
closure created inside `Formula.step`. -/
inductive InvTag : Type where
  | invertAdd
  | invertSub
  | invertMul
  | invertPow
  | passthrough
  | stepInvert
  deriving DecidableEq

/-- Registry names for `integrate` callbacks. -/
inductive IntegrateTag : Type where
  | integrateVariable
  | integrateAdd
  | integrateSub
  | integrateMul
  | integratePow
  deriving DecidableEq

/-- Registry names for `integrateInner` callbacks. -/
inductive IntegrateInnerTag : Type where
  | integrateVariableInner
  | integrateInnerAdd
  | integrateInnerSub
  deriving DecidableEq

/-- Registry names for `applySubstitution` callbacks. -/
inductive SubstitutionTag : Type where
  | passthrough
  | applySubstitutionMul
  deriving DecidableEq

/-- Registry names for `invertIntegral` callbacks. -/
inductive InvertIntegralTag : Type where
  | invertIntegrateAdd
  | invertIntegrateSub
  | invertIntegrateMul
  | invertIntegratePow
  | passthrough
  deriving DecidableEq

mutual

/-- One node of the formula tree: the fields of the `Formula` class, in
declaration order (source lines 50-60).  `innermostVariable` is the current
value of the referenced variable cell, or `none`. -/
inductive Formula : Type where
  | mk
      (inputs : List FormulaSource)
      (internalEvaluate : Option EvalTag)
      (internalInvert : Option InvTag)
      (internalIntegrate : Option IntegrateTag)
      (internalIntegrateInner : Option IntegrateInnerTag)
      (applySubstitution : Option SubstitutionTag)
      (internalInvertIntegral : Option InvertIntegralTag)
      (internalHasVariable : Bool)
      (innermostVariable : Option ℚ)

/-- A formula input: either a nested `Formula` or a raw numeric value
(the source type `FormulaSource = GenericFormula | ProcessedComputable`). -/
inductive FormulaSource : Type where
  | formula (f : Formula)
  | value (v : ℚ)

end

def Formula.inputs : Formula → List FormulaSource
  | .mk i _ _ _ _ _ _ _ _ => i

def Formula.internalEvaluate : Formula → Option EvalTag
  | .mk _ e _ _ _ _ _ _ _ => e

def Formula.internalInvert : Formula → Option InvTag
  | .mk _ _ v _ _ _ _ _ _ => v

def Formula.internalIntegrate : Formula → Option IntegrateTag
  | .mk _ _ _ g _ _ _ _ _ => g

def Formula.internalIntegrateInner : Formula → Option IntegrateInnerTag
  | .mk _ _ _ _ gi _ _ _ _ => gi

def Formula.applySubstitution : Formula → Option SubstitutionTag
  | .mk _ _ _ _ _ s _ _ _ => s

def Formula.internalInvertIntegral : Formula → Option InvertIntegralTag
  | .mk _ _ _ _ _ _ t _ _ => t

def Formula.internalHasVariable : Formula → Bool
  | .mk _ _ _ _ _ _ _ h _ => h

def Formula.innermostVariable : Formula → Option ℚ
  | .mk _ _ _ _ _ _ _ _ m => m

/-- Source lines 167-170: whether this formula has a singular variable. -/
def Formula.hasVariable (f : Formula) : Bool :=
  f.internalHasVariable

/-- Source lines 146-152: type predicate that the formula can be inverted. -/
def Formula.isInvertible (f : Formula) : Bool :=
  f.internalHasVariable && (f.internalInvert.isSome || f.internalEvaluate.isNone)

/-- Source lines 154-157: type predicate that the formula can be integrated. -/
def Formula.isIntegrable (f : Formula) : Bool :=
  f.internalHasVariable && f.internalIntegrate.isSome

/-- Source lines 159-165: type predicate that the formula's integral can be
inverted. -/
def Formula.isIntegralInvertible (f : Formula) : Bool :=
  f.internalHasVariable &&
    (f.internalInvertIntegral.isSome || f.internalEvaluate.isNone)

/-- Power on the model's numeric type: exact integer exponents are computed,
any other exponent is modelled as zero.  The substrate's general power is an
external black box; this model is only ever applied at integer exponents. -/
def qpow (a b : ℚ) : ℚ :=
  if b.den = 1 then a ^ b.num else 0

/-- Modelled from the spec: the registry's `evaluate` callbacks (section 4.2,
"evaluate calls into the numeric substrate").  Each callback receives the
already-evaluated inputs.  `stepEval` is the closure built by `Formula.step`;
the constructor never stores any `evaluate` callback (source lines 62-77), so
no instance can dispatch it, and its value here is an arbitrary constant.
Argument lists of unexpected arity are likewise unreachable junk. -/
def EvalTag.run : EvalTag → List ℚ → ℚ
  | .add, [a, b] => a + b
  | .sub, [a, b] => a - b
  | .mul, [a, b] => a * b
  | .pow, [a, b] => qpow a b
  | .maxOp, [a, b] => max a b
  | _, _ => 0

/-- Source lines 176-187: evaluate the current result of the formula.  The
stored `internalEvaluate` is applied to the recursively evaluated inputs;
otherwise the override is returned when the node has the variable, and
otherwise the first input is evaluated (an empty input list, impossible for a
constructed node, is modelled as zero). -/
def Formula.evaluate (f : Formula) (variableValue : Option ℚ) : ℚ :=
  match f with
  | .mk inputs ie _ _ _ _ _ ihv _ =>
    match ie with
    | some tag =>
        tag.run (inputs.attach.map fun s =>
          match s with
          | ⟨.formula g, hg⟩ => g.evaluate variableValue
          | ⟨.value v, _⟩ => v)
    | none =>
        (if ihv then variableValue else none).getD
          (match inputs with
            | [] => 0
            | .formula g :: _ => g.evaluate none
            | .value v :: _ => v)
termination_by sizeOf f
decreasing_by
  · have h1 := List.sizeOf_lt_of_mem hg
    simp at h1 ⊢
    omega
  · simp
    omega

/-- Source lines 28-30: evaluate a formula input, passing the variable
override along when it is a nested formula. -/
def unrefFormulaSource (s : FormulaSource) (variableValue : Option ℚ) : ℚ :=
  match s with
  | .formula g => g.evaluate variableValue
  | .value v => v

/-- The value of `unrefFormulaSource(this.inputs[0])` (no override): the first
input's current value.  An empty input list is junk (zero), unreachable for
constructed nodes. -/
def Formula.firstInputValue (f : Formula) : ℚ :=
  match f.inputs with
  | [] => 0
  | s :: _ => unrefFormulaSource s none

/-- The fallback part of `evaluate` written through `firstInputValue`. -/
theorem Formula.evaluate_of_internalEvaluate_none (f : Formula)
    (h : f.internalEvaluate = none) (variableValue : Option ℚ) :
    f.evaluate variableValue =
      (if f.internalHasVariable then variableValue else none).getD f.firstInputValue := by
  match f with
  | .mk inp ie iv ig igi s t hv m =>
    simp only [Formula.internalEvaluate] at h
    subst h
    rw [Formula.evaluate.eq_def]
    simp only [Formula.internalHasVariable, Formula.firstInputValue, Formula.inputs]
    cases inp with
    | nil => rfl
    | cons s0 rest => cases s0 <;> rfl

/-- Modelled from the spec: the registry's `invert` callbacks live in the
operation-registry module, which is not among the provided sources
(section 4.2: "invert supplies the analytic inverse expressed in terms of the
other inputs"; the min/max/clamp family reuses one shared passthrough
returning the value unchanged).  Because the constructor never assigns
`internalInvert` (source lines 62-77), no instance can dispatch any of these;
every theorem below either works with instances whose `internalInvert` is
`none` or carries that as a hypothesis.  All entries except the documented
identity passthrough are modelled as an uninterpreted fault. -/
def InvTag.run : InvTag → ℚ → List FormulaSource → Except String ℚ
  | .passthrough, v, _ => .ok v
  | _, _, _ => .error "unmodelled registry invert callback"

/-- Modelled from the spec: the registry's `invertIntegral` callbacks,
analogous to `InvTag.run` and equally undispatchable on any instance. -/
def InvertIntegralTag.run : InvertIntegralTag → ℚ → List FormulaSource → Except String ℚ
  | .passthrough, v, _ => .ok v
  | _, _, _ => .error "unmodelled registry invert-integral callback"

/-- Source lines 194-201: given a target result, solve for the variable.
Dispatches the stored invert callback when present, falls back to the
identity for a single-input variable-bearing node, and otherwise throws. -/
def Formula.invert (f : Formula) (value : ℚ) : Except String ℚ :=
  match f.internalInvert with
  | some tag => tag.run value f.inputs
  | none =>
      if f.inputs.length == 1 && f.internalHasVariable then .ok value
      else .error "Cannot invert non-invertible formula"

/-- Source lines 262-271: the same dispatch for the integral's inverse. -/
def Formula.invertIntegral (f : Formula) (value : ℚ) : Except String ℚ :=
  match f.internalInvertIntegral with
  | some tag => tag.run value f.inputs
  | none =>
      if f.inputs.length == 1 && f.internalHasVariable then .ok value
      else .error "Cannot invert integral of formula without invertible integral"

/-- The substitution stack: the list of pending adjustment closures.  Each
closure captures a node's `applySubstitution` callback together with that
node's inputs (source lines 235-238). -/
abbrev SubstitutionStack : Type :=
  List (SubstitutionTag × List FormulaSource)

/-- Modelled from the spec: applying one substitution closure (section 4.1:
the variable leaf's "substitution-apply is identity"; a linear multiply pushes
a multiply-by-the-constant adjustment).  Closures are only ever applied after
a complex node's integrate callback has filled the stack, and those registry
callbacks are not among the provided sources, so no theorem below depends on
this function's value. -/
def substApply (c : SubstitutionTag × List FormulaSource) (v : ℚ) : ℚ :=
  match c.1 with
  | .passthrough => v
  | .applySubstitutionMul =>
      match c.2 with
      | [.formula g, r] => if g.hasVariable then v * unrefFormulaSource r none else v
      | [l, .formula g] => if g.hasVariable then v * unrefFormulaSource l none else v
      | _ => v

/-- Source lines 32-34: the antiderivative of a bare variable, `x^2 / 2`
(source name `integrateVariable`; the suffix avoids the clash with the
registry-entry name `IntegrateTag.integrateVariable`).  When the surrounding
call passes no override (source line 223 reached with an absent argument),
the external numeric type coerces the absent value to zero. -/
def integrateVariableFn (variableValue : Option ℚ) : ℚ :=
  ((variableValue.getD 0) ^ 2) / 2

/-- Dispatch of a stored `integrate` callback, as invoked on source lines 218,
223-224 and 241-242 with the node's optional override, the optional
substitution stack and the node's inputs; returns the value and the stack as
the callback left it.  `integrateVariable` is in the provided sources (lines
32-34) and neither reads the stack nor the inputs.  Modelled from the spec:
the remaining entries live in the registry module absent from the sources;
they are modelled as an uninterpreted fault, and no theorem below depends on
their value. -/
def IntegrateTag.run (t : IntegrateTag) (variableValue : Option ℚ)
    (stack : Option SubstitutionStack) (inputs : List FormulaSource) :
    Except String (ℚ × Option SubstitutionStack) :=
  match t with
  | .integrateVariable => .ok (integrateVariableFn variableValue, stack)
  | _ => .error "unmodelled registry integrate callback"

/-- Dispatch of a stored `integrateInner` callback (source line 239-240).
`integrateVariableInner` is in the provided sources (lines 36-41): it throws
when neither an override nor an innermost variable exists, and otherwise
returns the override or the innermost variable's current value.  Modelled
from the spec: the other entries live in the absent registry module and are
modelled as an uninterpreted fault. -/
def IntegrateInnerTag.run (t : IntegrateInnerTag) (variableValue : Option ℚ)
    (stack : SubstitutionStack) (inputs : List FormulaSource)
    (innermost : Option ℚ) : Except String (ℚ × SubstitutionStack) :=
  match t with
  | .integrateVariableInner =>
      match variableValue, innermost with
      | none, none => .error "Cannot integrate non-existent variable"
      | _, _ => .ok (variableValue.getD (innermost.getD 0), stack)
  | _ => .error "unmodelled registry integrate-inner callback"

/-- Source lines 209-229, the "outer" half of `evaluateIntegral` (the call
with no stack).  A node with no `applySubstitution` callback is the complex
node: it opens a fresh stack, dispatches its integrate callback and then
applies every accumulated closure in stack order.  A node with one keeps
digging: it dispatches its integrate callback with no stack, or for a bare
single-input variable node falls back to `x^2 / 2` of the override or the
first input's value; otherwise it throws. -/
def Formula.evaluateIntegralOuter (f : Formula) (variableValue : Option ℚ) :
    Except String ℚ :=
  match f.applySubstitution with
  | none =>
      match f.internalIntegrate with
      | none => .error "Cannot integrate formula with non-existent operation"
      | some tag => do
          let r ← tag.run variableValue (some []) f.inputs
          .ok ((r.2.getD []).foldl (fun v c => substApply c v) r.1)
  | some _ =>
      match f.internalIntegrate with
      | some tag => do
          let r ← tag.run variableValue none f.inputs
          .ok r.1
      | none =>
          if f.inputs.length == 1 && f.internalHasVariable then
            .ok (integrateVariableFn (some (variableValue.getD f.firstInputValue)))
          else .error "Cannot integrate formula without variable"

/-- Source lines 230-247, the "inner" half of `evaluateIntegral` (the call
with a stack present).  A node that is itself complex (no `applySubstitution`
callback) while already inside another complex node throws.  Otherwise its
substitution closure is pushed and the walk continues through
`integrateInner`, then `integrate`, then the bare-variable fallback. -/
def Formula.evaluateIntegralInner (f : Formula) (variableValue : Option ℚ)
    (stack : SubstitutionStack) : Except String (ℚ × SubstitutionStack) :=
  match f.applySubstitution with
  | none => .error "Cannot have two complex operations in an integrable formula"
  | some sub =>
      let stack2 : SubstitutionStack := stack ++ [(sub, f.inputs)]
      match f.internalIntegrateInner with
      | some tag => tag.run variableValue stack2 f.inputs f.innermostVariable
      | none =>
          match f.internalIntegrate with
          | some tag => do
              let r ← tag.run variableValue (some stack2) f.inputs
              .ok (r.1, r.2.getD stack2)
          | none =>
              if f.inputs.length == 1 && f.internalHasVariable then
                .ok (variableValue.getD f.firstInputValue, stack2)
              else .error "Cannot integrate formula without variable"

/-- Source lines 277-293: structural equality.  Equal input counts; for every
input pair, both nested formulas that are recursively equal or both raw
values that are numerically equal; identical stored `internalEvaluate`,
`internalInvert`, `internalIntegrate` and `internalInvertIntegral` callback
references; and identical `internalHasVariable`.  (`internalIntegrateInner`,
`applySubstitution`, `innermostVariable` are not compared, exactly as in the
source.) -/
def Formula.equals (f other : Formula) : Bool :=
  match f, other with
  | .mk i1 e1 v1 g1 _ _ t1 h1 _, .mk i2 e2 v2 g2 _ _ t2 h2 _ =>
      decide (i1.length = i2.length) &&
      ((i1.zip i2).attach.all fun p =>
        match p with
        | ⟨(.formula a, .formula b), hp⟩ => a.equals b
        | ⟨(.formula _, .value _), _⟩ => false
        | ⟨(.value _, .formula _), _⟩ => false
        | ⟨(.value a, .value b), _⟩ => decide (a = b)) &&
      decide (e1 = e2) && decide (v1 = v2) && decide (g1 = g2) &&
      decide (t1 = t2) && decide (h1 = h2)
termination_by sizeOf f
decreasing_by
  · have h1 := (List.of_mem_zip hp).1
    have h2 := List.sizeOf_lt_of_mem h1
    simp at h2 ⊢
    omega

/-- The properties record returned by the three setup helpers
(`InternalFormulaProperties` of the source's type module), in field order of
the class. -/
structure InternalFormulaProperties : Type where
  inputs : List FormulaSource
  internalEvaluate : Option EvalTag
  internalInvert : Option InvTag
  internalIntegrate : Option IntegrateTag
  internalIntegrateInner : Option IntegrateInnerTag
  applySubstitution : Option SubstitutionTag
  internalInvertIntegral : Option InvertIntegralTag
  internalHasVariable : Bool
  innermostVariable : Option ℚ

/-- The constructor's three mutually exclusive option shapes (source lines
62-70): an options object with a `variable` key, one without an `evaluate`
key (the constant path), and the general operation-node shape whose
`hasVariable` flag models `hasVariable === true`. -/
inductive FormulaOptions : Type where
  | variableOpts (value : ℚ)
  | constantOpts (inputs : List FormulaSource)
  | generalOpts
      (inputs : List FormulaSource)
      (evaluate : EvalTag)
      (invert : Option InvTag)
      (integrate : Option IntegrateTag)
      (integrateInner : Option IntegrateInnerTag)
      (applySubstitution : Option SubstitutionTag)
      (invertIntegral : Option InvertIntegralTag)
      (hasVariable : Bool)

/-- Source lines 79-92: a variable leaf wraps the cell as its single input,
has the variable, and carries the variable-integration callbacks; no
evaluate, invert or invert-integral entries are supplied. -/
def setupVariable (value : ℚ) : InternalFormulaProperties :=
  ⟨[.value value], none, none, some .integrateVariable, some .integrateVariableInner,
    some .passthrough, none, true, some value⟩

/-- Source lines 94-102: a constant leaf requires exactly one input and has
no callbacks and no variable. -/
def setupConstant (inputs : List FormulaSource) :
    Except String InternalFormulaProperties :=
  if inputs.length ≠ 1 then
    .error "Evaluate function is required if inputs is not length 1"
  else
    .ok ⟨inputs, none, none, none, none, none, none, false, none⟩

/-- The number of variable-bearing formula inputs (source lines 119-121). -/
def countVariables (inputs : List FormulaSource) : ℕ :=
  (inputs.filter fun s =>
    match s with
    | .formula g => g.hasVariable
    | .value _ => false).length

/-- The first variable-bearing formula input (source lines 122-124). -/
def findVariable (inputs : List FormulaSource) : Option Formula :=
  match inputs.find? fun s =>
    match s with
    | .formula g => g.hasVariable
    | .value _ => false with
  | some (.formula g) => some g
  | _ => none

/-- Source lines 104-144: the operation-node setup.  Throws when the explicit
`hasVariable` flag is set without an invert or invert-integral callback;
derives `internalHasVariable` from the number of variable-bearing inputs;
propagates `innermostVariable` from the variable-bearing input; and keeps the
supplied `invert` / `invertIntegral` callbacks only when that input is itself
invertible / integral-invertible. -/
def setupFormula (inputs : List FormulaSource) (evaluate : EvalTag)
    (invert : Option InvTag) (integrate : Option IntegrateTag)
    (integrateInner : Option IntegrateInnerTag)
    (applySub : Option SubstitutionTag)
    (invertIntegral : Option InvertIntegralTag) (hasVariableFlag : Bool) :
    Except String InternalFormulaProperties :=
  if invert = none ∧ invertIntegral = none ∧ hasVariableFlag then
    .error "A formula cannot be marked as having a variable if it is not invertible"
  else
    let numVariables := countVariables inputs
    let varInput := findVariable inputs
    let internalHasVariable :=
      decide (numVariables = 1) || (decide (numVariables = 0) && hasVariableFlag)
    let innermostVariable :=
      if internalHasVariable then varInput.bind Formula.innermostVariable else none
    let internalInvert :=
      if internalHasVariable && ((varInput.map Formula.isInvertible).getD false) then
        invert
      else none
    let internalInvertIntegral :=
      if internalHasVariable &&
          ((varInput.map Formula.isIntegralInvertible).getD false) then
        invertIntegral
      else none
    .ok ⟨inputs, some evaluate, internalInvert, integrate, integrateInner, applySub,
      internalInvertIntegral, internalHasVariable, innermostVariable⟩

/-- Source lines 62-77, the constructor body after the setup helper ran: only
`inputs`, `internalHasVariable`, `innermostVariable`, `internalIntegrate`,
`internalIntegrateInner` and `applySubstitution` are assigned from the
returned properties.  The declared fields `internalEvaluate`,
`internalInvert` and `internalInvertIntegral` are never assigned and are
therefore undefined (`none`) on the instance. -/
def assignFields (p : InternalFormulaProperties) : Formula :=
  Formula.mk p.inputs none none p.internalIntegrate p.internalIntegrateInner
    p.applySubstitution none p.internalHasVariable p.innermostVariable

/-- Source lines 62-77: the constructor, dispatching on the options shape and
then assigning the fields via `assignFields`. -/
def Formula.construct : FormulaOptions → Except String Formula
  | .variableOpts v => .ok (assignFields (setupVariable v))
  | .constantOpts inputs => (setupConstant inputs).map assignFields
  | .generalOpts inputs e inv ig igi asb ii hv =>
      (setupFormula inputs e inv ig igi asb ii hv).map assignFields

/-- Total wrapper used by the factory functions, none of which can reach a
constructor throw (they neither set the `hasVariable` flag nor build a
constant from other than one input); the error value is junk. -/
def constructBang (o : FormulaOptions) : Formula :=
  match Formula.construct o with
  | .ok f => f
  | .error _ => Formula.mk [] none none none none none none false none

/-- Source lines 309-313: the variable-leaf factory. -/
def Formula.variable (value : ℚ) : Formula :=
  constructBang (.variableOpts value)

/-- Source lines 299-303: the constant-leaf factory. -/
def Formula.constant (value : ℚ) : Formula :=
  constructBang (.constantOpts [.value value])

/-- Source lines 448-461: the addition factory with its registry bundle. -/
def Formula.add (value other : FormulaSource) : Formula :=
  constructBang (.generalOpts [value, other] .add (some .invertAdd)
    (some .integrateAdd) (some .integrateInnerAdd) (some .passthrough)
    (some .invertIntegrateAdd) false)

/-- Source lines 464-477: the subtraction factory with its registry bundle. -/
def Formula.sub (value other : FormulaSource) : Formula :=
  constructBang (.generalOpts [value, other] .sub (some .invertSub)
    (some .integrateSub) (some .integrateInnerSub) (some .passthrough)
    (some .invertIntegrateSub) false)

/-- Source lines 481-493: the multiplication factory with its registry bundle
(no `integrateInner`; a multiply-substitution callback). -/
def Formula.mul (value other : FormulaSource) : Formula :=
  constructBang (.generalOpts [value, other] .mul (some .invertMul)
    (some .integrateMul) none (some .applySubstitutionMul)
    (some .invertIntegrateMul) false)

/-- Source lines 624-635: the power factory with its registry bundle (no
`integrateInner` and no `applySubstitution`: a pow node is a complex
operation). -/
def Formula.pow (value other : FormulaSource) : Formula :=
  constructBang (.generalOpts [value, other] .pow (some .invertPow)
    (some .integratePow) none none (some .invertIntegratePow) false)

/-- Source lines 528-541: the max factory, whose invert and invert-integral
entries are the shared identity passthrough and which has no integrate
callback. -/
def Formula.max (value other : FormulaSource) : Formula :=
  constructBang (.generalOpts [value, other] .maxOp (some .passthrough)
    none none none (some .passthrough) false)

/-- Source lines 322-356: the step-wise combinator.  It builds the modified
inner formula over a fresh variable cell initialised to zero, then constructs
a node whose single input is the incoming value, whose evaluate callback is
the `evalStep` closure, and whose invert callback is the `invertStep` closure
exactly when the inner formula is invertible and variable-bearing.  No
integrate, integrate-inner, substitution or invert-integral entries are
supplied. -/
def Formula.step (value : FormulaSource) (start : ℚ)
    (formulaModifier : Formula → Formula) : Formula :=
  let formula := formulaModifier (Formula.variable 0)
  constructBang (.generalOpts [value] .stepEval
    (if formula.isInvertible && formula.hasVariable then some .stepInvert else none)
    none none none none false)

/-- The substrate's `Decimal.floor`, modelled on `ℚ` as the rational floor. -/
def qfloor (q : ℚ) : ℚ :=
  ((⌊q⌋ : ℤ) : ℚ)

/-- Source lines 1358-1389: the maximum-affordable utility.  The resource is
its current balance; `spendResources` as in the source.  With
`spendResources` the formula must be integrable and integral-invertible, and
the result is `floor (invertIntegral (balance + evaluateIntegral()))` minus
the innermost variable's current value; without it the formula must be
invertible and the result is `floor (invert balance)`. -/
def calculateMaxAffordable (formula : Formula) (resource : ℚ)
    (spendResources : Bool) : Except String ℚ :=
  if spendResources then
    if !(formula.isIntegrable && formula.isIntegralInvertible) then
      .error "Cannot calculate max affordable of formula with non-invertible integral"
    else do
      let ei ← formula.evaluateIntegralOuter none
      let ii ← formula.invertIntegral (resource + ei)
      .ok (qfloor ii - (formula.innermostVariable.getD 0))
  else
    if !formula.isInvertible then
      .error "Cannot calculate max affordable of non-invertible formula"
    else do
      let iv ← formula.invert resource
      .ok (qfloor iv)

/-- Source lines 1397-1418: the cost-for-count utility.  `newValue` is the
purchase count plus the innermost variable's current value; with
`spendResources` the result is the definite-integral difference
`evaluateIntegral newValue - evaluateIntegral()` (the no-argument call
evaluates the integral with no override, i.e. at the current variable), and
without it the spot price `evaluate newValue`. -/
def calculateCost (formula : Formula) (amountToBuy : ℚ)
    (spendResources : Bool) : Except String ℚ :=
  let newValue := amountToBuy + (formula.innermostVariable.getD 0)
  if spendResources then do
    let a ← formula.evaluateIntegralOuter (some newValue)
    let b ← formula.evaluateIntegralOuter none
    .ok (a - b)
  else
    .ok (formula.evaluate (some newValue))

/-- `invert` when no invert callback is stored, written as one equation. -/
theorem Formula.invert_of_internalInvert_none (f : Formula)
    (h : f.internalInvert = none) (v : ℚ) :
    f.invert v =
      if f.inputs.length == 1 && f.internalHasVariable then .ok v
      else .error "Cannot invert non-invertible formula" := by
  unfold Formula.invert
  rw [h]

/-- `invertIntegral` when no invert-integral callback is stored. -/
theorem Formula.invertIntegral_of_none (f : Formula)
    (h : f.internalInvertIntegral = none) (v : ℚ) :
    f.invertIntegral v =
      if f.inputs.length == 1 && f.internalHasVariable then .ok v
      else .error "Cannot invert integral of formula without invertible integral" := by
  unfold Formula.invertIntegral
  rw [h]

/-- What a successful general-options construction produces. -/
theorem construct_generalOpts_ok
    (inputs : List FormulaSource) (e : EvalTag) (inv : Option InvTag)
    (ig : Option IntegrateTag) (igi : Option IntegrateInnerTag)
    (asb : Option SubstitutionTag) (ii : Option InvertIntegralTag)
    (hvFlag : Bool) (f : Formula)
    (hok : Formula.construct (.generalOpts inputs e inv ig igi asb ii hvFlag) = .ok f) :
    ∃ p, setupFormula inputs e inv ig igi asb ii hvFlag = .ok p ∧ f = assignFields p := by
  simp only [Formula.construct] at hok
  cases hsf : setupFormula inputs e inv ig igi asb ii hvFlag with
  | error msg => rw [hsf] at hok; simp [Except.map] at hok
  | ok p =>
      rw [hsf] at hok
      simp only [Except.map, Except.ok.injEq] at hok
      exact ⟨p, rfl, hok.symm⟩

/-- C1: a formula constructed through the operation-node path (`setupFormula`,
as used by `Formula.add`, `Formula.pow`, ...) never has the evaluate, invert
or invert-integral callbacks stored on the instance; consequently `evaluate`
ignores the operation's evaluate callback and returns the override when the
node has the variable and an override is given, and otherwise the first
input's value, and `invert` throws for every such node with more than one
input. -/
theorem c1_operation_node_drops_callbacks
    (inputs : List FormulaSource) (e : EvalTag) (inv : Option InvTag)
    (ig : Option IntegrateTag) (igi : Option IntegrateInnerTag)
    (asb : Option SubstitutionTag) (ii : Option InvertIntegralTag)
    (hvFlag : Bool) (f : Formula)
    (hok : Formula.construct (.generalOpts inputs e inv ig igi asb ii hvFlag) = .ok f) :
    (f.internalEvaluate = none ∧ f.internalInvert = none ∧
      f.internalInvertIntegral = none) ∧
    (f.internalHasVariable = true → ∀ v : ℚ, f.evaluate (some v) = v) ∧
    (f.internalHasVariable = false → ∀ w : Option ℚ, f.evaluate w = f.firstInputValue) ∧
    f.evaluate none = f.firstInputValue ∧
    (1 < f.inputs.length → ∀ v : ℚ, f.invert v =
      .error "Cannot invert non-invertible formula") := by
  obtain ⟨p, hp, hf⟩ := construct_generalOpts_ok inputs e inv ig igi asb ii hvFlag f hok
  subst hf
  have hev : (assignFields p).internalEvaluate = none := rfl
  have hiv : (assignFields p).internalInvert = none := rfl
  have hii : (assignFields p).internalInvertIntegral = none := rfl
  refine ⟨⟨hev, hiv, hii⟩, ?_, ?_, ?_, ?_⟩
  · intro hhv v
    rw [Formula.evaluate_of_internalEvaluate_none _ hev]
    rw [hhv]
    rfl
  · intro hhv w
    rw [Formula.evaluate_of_internalEvaluate_none _ hev]
    rw [hhv]
    rfl
  · rw [Formula.evaluate_of_internalEvaluate_none _ hev]
    cases hhv : (assignFields p).internalHasVariable <;> simp [hhv]
  · intro hlen v
    rw [Formula.invert_of_internalInvert_none _ hiv]
    have : ((assignFields p).inputs.length == 1) = false := by
      simp only [beq_eq_false_iff_ne]
      omega
    rw [this]
    rfl

/-- C1 witness: `Formula.add (variable 0) 1` is built through the
operation-node path, evaluates to the override, and throws on invert. -/
theorem c1_operation_node_drops_callbacks_witness :
    (Formula.add (.formula (Formula.variable 0)) (.value 1)).evaluate (some 3) = 3 ∧
    (Formula.add (.formula (Formula.variable 0)) (.value 1)).invert 16 =
      .error "Cannot invert non-invertible formula" := by
  have h := c1_operation_node_drops_callbacks
    [.formula (Formula.variable 0), .value 1] .add (some .invertAdd)
    (some .integrateAdd) (some .integrateInnerAdd) (some .passthrough)
    (some .invertIntegrateAdd) false
    (Formula.add (.formula (Formula.variable 0)) (.value 1)) rfl
  exact ⟨h.2.1 rfl 3, h.2.2.2.2 (by decide) 16⟩

/-- C2: the code at the claimed scenario.  For the formula
`variable(x=0).add(1).pow(2)` the claim expects `evaluate` with override `3`
to return `16` and `invert 16` to return `3`; because the constructor never
stores the evaluate and invert callbacks, the code instead returns the
override `3` unchanged from `evaluate`, and `invert` throws (the node has two
inputs and no stored invert callback). -/
theorem c2_add_pow_scenario_behaviour :
    (Formula.pow (.formula (Formula.add (.formula (Formula.variable 0)) (.value 1)))
        (.value 2)).evaluate (some 3) = 3 ∧
    (Formula.pow (.formula (Formula.add (.formula (Formula.variable 0)) (.value 1)))
        (.value 2)).invert 16 =
      .error "Cannot invert non-invertible formula" := by
  constructor
  · have he : (Formula.pow
        (.formula (Formula.add (.formula (Formula.variable 0)) (.value 1)))
        (.value 2)).internalEvaluate = none := rfl
    rw [Formula.evaluate_of_internalEvaluate_none _ he]
    rfl
  · rfl

/-- C8: the code at a failing input of the claimed round trip.  The formula
`variable(x=0).add(1)` reports `isInvertible() = true`, yet `invert 16`
throws, so `evaluate (invert 16) = 16` cannot hold for it. -/
theorem c8_round_trip_fails :
    (Formula.add (.formula (Formula.variable 0)) (.value 1)).isInvertible = true ∧
    (Formula.add (.formula (Formula.variable 0)) (.value 1)).invert 16 =
      .error "Cannot invert non-invertible formula" := by
  constructor
  · rfl
  · rfl

/-- C9: the code at the claimed step scenario.  For
`step(variable(x), start = 150, modifier = v.mul(2))` the claim expects
evaluation at `200` to give `250` and `invert 250` to give `200`; because the
constructor never stores the `evalStep` and `invertStep` closures, the code
returns the override unchanged from `evaluate` (so `100 ↦ 100` and
`200 ↦ 200`) and `invert` falls back to the identity (`250 ↦ 250`). -/
theorem c9_step_scenario_behaviour :
    (Formula.step (.formula (Formula.variable 0)) 150
        (fun v => Formula.mul (.formula v) (.value 2))).evaluate (some 100) = 100 ∧
    (Formula.step (.formula (Formula.variable 0)) 150
        (fun v => Formula.mul (.formula v) (.value 2))).evaluate (some 200) = 200 ∧
    (Formula.step (.formula (Formula.variable 0)) 150
        (fun v => Formula.mul (.formula v) (.value 2))).invert 250 = .ok 250 := by
  refine ⟨?_, ?_, ?_⟩
  · have he : (Formula.step (.formula (Formula.variable 0)) 150
        (fun v => Formula.mul (.formula v) (.value 2))).internalEvaluate = none := rfl
    rw [Formula.evaluate_of_internalEvaluate_none _ he]
    rfl
  · have he : (Formula.step (.formula (Formula.variable 0)) 150
        (fun v => Formula.mul (.formula v) (.value 2))).internalEvaluate = none := rfl
    rw [Formula.evaluate_of_internalEvaluate_none _ he]
    rfl
  · rfl

/-- C3 counterexample: the claim "invert throws iff isInvertible() is false"
fails on `variable(x=2).mul(3)`, which reports `isInvertible() = true` yet
throws from `invert 6`. -/
theorem c3_invert_iff_isInvertible_counterexample :
    (Formula.mul (.formula (Formula.variable 2)) (.value 3)).isInvertible = true ∧
    (Formula.mul (.formula (Formula.variable 2)) (.value 3)).invert 6 =
      .error "Cannot invert non-invertible formula" := by
  constructor
  · rfl
  · rfl

/-- C3 amended: on every instance (all of which have `internalInvert = none`
and `internalEvaluate = none`, since the constructor never assigns those
fields), `isInvertible()` reduces to `hasVariable()`, and `invert` throws
exactly when the node is not a single-input variable-bearing node; so
checking `isInvertible()` does not prevent the fault for nodes with more than
one input. -/
theorem c3_invert_throws_iff_not_single_input_variable
    (f : Formula) (v : ℚ)
    (hiv : f.internalInvert = none) (hev : f.internalEvaluate = none) :
    f.isInvertible = f.internalHasVariable ∧
    (f.invert v = .ok v ↔
      (f.inputs.length = 1 ∧ f.internalHasVariable = true)) ∧
    (f.invert v = .error "Cannot invert non-invertible formula" ↔
      ¬(f.inputs.length = 1 ∧ f.internalHasVariable = true)) := by
  have hinv := Formula.invert_of_internalInvert_none f hiv v
  refine ⟨?_, ?_, ?_⟩
  · unfold Formula.isInvertible
    rw [hiv, hev]
    cases f.internalHasVariable <;> rfl
  · rw [hinv]
    by_cases hc : f.inputs.length = 1 ∧ f.internalHasVariable = true
    · obtain ⟨h1, h2⟩ := hc
      simp [h1, h2]
    · have : (f.inputs.length == 1 && f.internalHasVariable) = false := by
        rcases Decidable.not_and_iff_or_not.mp hc with h | h
        · simp [beq_eq_false_iff_ne, h]
        · simp [Bool.not_eq_true] at h
          simp [h]
      rw [this]
      simp only [Bool.false_eq_true, if_false]
      constructor
      · intro hcontra
        cases hcontra
      · intro h
        exact absurd h hc
  · rw [hinv]
    by_cases hc : f.inputs.length = 1 ∧ f.internalHasVariable = true
    · obtain ⟨h1, h2⟩ := hc
      simp [h1, h2]
    · have : (f.inputs.length == 1 && f.internalHasVariable) = false := by
        rcases Decidable.not_and_iff_or_not.mp hc with h | h
        · simp [beq_eq_false_iff_ne, h]
        · simp [Bool.not_eq_true] at h
          simp [h]
      rw [this]
      simp [hc]

/-- C3 witness: the amended characterisation at `variable(7)` and `v = 5`:
a single-input variable-bearing node, so `invert` succeeds with the identity. -/
theorem c3_invert_throws_iff_not_single_input_variable_witness :
    (Formula.variable 7).invert 5 = .ok 5 := by
  have h := c3_invert_throws_iff_not_single_input_variable
    (Formula.variable 7) 5 rfl rfl
  exact h.2.1.mpr ⟨rfl, rfl⟩

/-- C4 counterexample: constructing an addition node over two variable-bearing
inputs is not rejected; the constructor succeeds and returns a node (with
`has-variable = false`), where the claim says construction fails. -/
theorem c4_two_variables_not_rejected :
    Formula.construct (.generalOpts
        [.formula (Formula.variable 0), .formula (Formula.variable 1)] .add
        (some .invertAdd) (some .integrateAdd) (some .integrateInnerAdd)
        (some .passthrough) (some .invertIntegrateAdd) false) =
      .ok (Formula.mk [.formula (Formula.variable 0), .formula (Formula.variable 1)]
        none none (some .integrateAdd) (some .integrateInnerAdd) (some .passthrough)
        none false none) := by
  rfl

/-- C4 amended: constructing an operation node whose inputs contain more than
one variable-bearing subtree is not rejected.  Unless the explicit
has-variable flag is set without any invert or invert-integral callback (the
only throwing check of `setupFormula`), construction succeeds and yields a
node with `has-variable = false` and no innermost variable. -/
theorem c4_two_variables_yield_no_variable
    (inputs : List FormulaSource) (e : EvalTag) (inv : Option InvTag)
    (ig : Option IntegrateTag) (igi : Option IntegrateInnerTag)
    (asb : Option SubstitutionTag) (ii : Option InvertIntegralTag)
    (hvFlag : Bool)
    (hnum : 2 ≤ countVariables inputs)
    (hguard : ¬(inv = none ∧ ii = none ∧ hvFlag = true)) :
    Formula.construct (.generalOpts inputs e inv ig igi asb ii hvFlag) =
      .ok (Formula.mk inputs none none ig igi asb none false none) := by
  simp only [Formula.construct]
  unfold setupFormula
  rw [if_neg (by simpa using hguard)]
  have h1 : decide (countVariables inputs = 1) = false := by
    simp only [decide_eq_false_iff_not]
    omega
  have h0 : decide (countVariables inputs = 0) = false := by
    simp only [decide_eq_false_iff_not]
    omega
  simp only [h1, h0, Bool.false_and, Bool.or_false, Bool.false_eq_true, if_false,
    Bool.false_or]
  rfl

/-- C4 witness: the amended statement at a concrete two-variable input list
(a multiplication bundle over `variable(5)` and `variable(6)`). -/
theorem c4_two_variables_yield_no_variable_witness :
    Formula.construct (.generalOpts
        [.formula (Formula.variable 5), .formula (Formula.variable 6)] .mul
        (some .invertMul) (some .integrateMul) none (some .applySubstitutionMul)
        (some .invertIntegrateMul) false) =
      .ok (Formula.mk [.formula (Formula.variable 5), .formula (Formula.variable 6)]
        none none (some .integrateMul) none (some .applySubstitutionMul)
        none false none) := by
  exact c4_two_variables_yield_no_variable
    [.formula (Formula.variable 5), .formula (Formula.variable 6)] .mul
    (some .invertMul) (some .integrateMul) none (some .applySubstitutionMul)
    (some .invertIntegrateMul) false (by decide) (by simp)

/-- C5: during `evaluateIntegral`, when the inner (stack-present) walk reaches
a node with no apply-substitution callback — a second complex operation
inside an already-open complex operation — the call fails with the
two-complex-operations error, before anything else is attempted. -/
theorem c5_second_complex_operation_fails
    (f : Formula) (variableValue : Option ℚ) (stack : SubstitutionStack)
    (h : f.applySubstitution = none) :
    f.evaluateIntegralInner variableValue stack =
      .error "Cannot have two complex operations in an integrable formula" := by
  unfold Formula.evaluateIntegralInner
  rw [h]

/-- C5 witness: a pow node (a complex operation, carrying no
apply-substitution callback) fails the inner walk. -/
theorem c5_second_complex_operation_fails_witness :
    (Formula.pow (.formula (Formula.variable 0)) (.value 2)).evaluateIntegralInner
        none [] =
      .error "Cannot have two complex operations in an integrable formula" := by
  exact c5_second_complex_operation_fails
    (Formula.pow (.formula (Formula.variable 0)) (.value 2)) none [] rfl

/-- C6: `calculateMaxAffordable` with `spendResources = true` requires the
formula to be integrable and integral-invertible and fails otherwise, and on
success returns `floor (invertIntegral (balance + evaluateIntegral()))` minus
the innermost variable's current value; with `spendResources = false` it
requires invertibility, fails otherwise, and returns
`floor (invert balance)`. -/
theorem c6_calculateMaxAffordable_spec (f : Formula) (resource : ℚ) :
    ((f.isIntegrable = true ∧ f.isIntegralInvertible = true) →
      ∀ ei ii : ℚ, f.evaluateIntegralOuter none = .ok ei →
        f.invertIntegral (resource + ei) = .ok ii →
        calculateMaxAffordable f resource true =
          .ok (qfloor ii - (f.innermostVariable.getD 0))) ∧
    (¬(f.isIntegrable = true ∧ f.isIntegralInvertible = true) →
      calculateMaxAffordable f resource true =
        .error "Cannot calculate max affordable of formula with non-invertible integral") ∧
    (f.isInvertible = true →
      ∀ iv : ℚ, f.invert resource = .ok iv →
        calculateMaxAffordable f resource false = .ok (qfloor iv)) ∧
    (f.isInvertible = false →
      calculateMaxAffordable f resource false =
        .error "Cannot calculate max affordable of non-invertible formula") := by
  refine ⟨?_, ?_, ?_, ?_⟩
  · intro hcap ei ii hei hii
    unfold calculateMaxAffordable
    rw [if_pos rfl, hcap.1, hcap.2]
    simp only [Bool.and_self, Bool.not_true, Bool.false_eq_true, if_false]
    rw [hei]
    simp only [Except.bind, bind]
    rw [hii]
  · intro hcap
    unfold calculateMaxAffordable
    rw [if_pos rfl]
    have : (f.isIntegrable && f.isIntegralInvertible) = false := by
      rcases Decidable.not_and_iff_or_not.mp hcap with h | h
      · simp [Bool.eq_false_iff.mpr h]
      · simp [Bool.eq_false_iff.mpr h]
    rw [this]
    rfl
  · intro hcap iv hiv
    unfold calculateMaxAffordable
    simp only [Bool.false_eq_true, if_false]
    rw [hcap]
    simp only [Bool.not_true, Bool.false_eq_true, if_false]
    simp only [Except.bind, bind]
    rw [hiv]
  · intro hcap
    unfold calculateMaxAffordable
    simp only [Bool.false_eq_true, if_false]
    rw [hcap]
    rfl

/-- C6 witness: at `variable(x=5)` with balance `100`, both branches: the
accurate path yields `floor(invertIntegral(100 + 0)) - 5 = 95` and the fast
path yields `floor(invert(100)) = 100`. -/
theorem c6_calculateMaxAffordable_spec_witness :
    calculateMaxAffordable (Formula.variable 5) 100 true = .ok 95 ∧
    calculateMaxAffordable (Formula.variable 5) 100 false = .ok 100 := by
  have h := c6_calculateMaxAffordable_spec (Formula.variable 5) 100
  constructor
  · have h1 := h.1 ⟨rfl, rfl⟩ (((0 : ℚ) ^ 2) / 2) (100 + ((0 : ℚ) ^ 2) / 2) rfl rfl
    rw [h1]
    norm_num [qfloor, Formula.variable, constructBang, Formula.construct, setupVariable,
      assignFields, Formula.innermostVariable]
  · have h1 := h.2.2.1 rfl 100 rfl
    rw [h1]
    norm_num [qfloor]

/-- C7: `calculateCost` with `spendResources = true` returns
`evaluateIntegral (amountToBuy + current variable) - evaluateIntegral()` (the
definite integral over the purchase range, the second call evaluating the
integral with no override, i.e. at the current variable), and with
`spendResources = false` returns `evaluate (amountToBuy + current variable)`. -/
theorem c7_calculateCost_spec (f : Formula) (amountToBuy : ℚ) :
    (∀ a b : ℚ,
      f.evaluateIntegralOuter (some (amountToBuy + (f.innermostVariable.getD 0))) = .ok a →
      f.evaluateIntegralOuter none = .ok b →
      calculateCost f amountToBuy true = .ok (a - b)) ∧
    calculateCost f amountToBuy false =
      .ok (f.evaluate (some (amountToBuy + (f.innermostVariable.getD 0)))) := by
  constructor
  · intro a b ha hb
    unfold calculateCost
    simp only [if_pos rfl]
    rw [ha]
    simp only [Except.bind, bind]
    rw [hb]
    simp
  · rfl

/-- C7 witness: at `variable(x=5)` buying `2`: the accurate branch gives the
definite integral `49/2 - 0` and the fast branch the spot price `7`. -/
theorem c7_calculateCost_spec_witness :
    calculateCost (Formula.variable 5) 2 true = .ok (49 / 2) ∧
    calculateCost (Formula.variable 5) 2 false = .ok 7 := by
  have h := c7_calculateCost_spec (Formula.variable 5) 2
  constructor
  · have hcur : (Formula.variable 5).innermostVariable.getD 0 = 5 := rfl
    have ha : (Formula.variable 5).evaluateIntegralOuter
        (some (2 + (Formula.variable 5).innermostVariable.getD 0)) =
        .ok (((2 + (5 : ℚ)) ^ 2) / 2) := by
      rw [hcur]
      rfl
    have hb : (Formula.variable 5).evaluateIntegralOuter none =
        .ok (((0 : ℚ) ^ 2) / 2) := rfl
    have h1 := h.1 _ _ ha hb
    rw [h1]
    norm_num
  · have h1 := h.2
    rw [h1]
    have hev : (Formula.variable 5).evaluate
        (some (2 + (Formula.variable 5).innermostVariable.getD 0)) = 2 + 5 := by
      have he : (Formula.variable 5).internalEvaluate = none := rfl
      rw [Formula.evaluate_of_internalEvaluate_none _ he]
      rfl
    rw [hev]
    norm_num

/-- The per-pair input condition of `equals`: both nested formulas that are
recursively equal, or both raw values that are numerically equal. -/
def sourcePairEq (p : FormulaSource × FormulaSource) : Prop :=
  match p with
  | (.formula a, .formula b) => a.equals b = true
  | (.value a, .value b) => a = b
  | (.formula _, .value _) => False
  | (.value _, .formula _) => False

/-- `equals` characterised: equal input counts, pairwise-matching inputs, and
identical stored evaluate, invert, integrate and invert-integral callbacks
plus identical has-variable. -/
theorem Formula.equals_eq_true_iff (f g : Formula) :
    f.equals g = true ↔
      (f.inputs.length = g.inputs.length ∧
       (∀ p ∈ f.inputs.zip g.inputs, sourcePairEq p) ∧
       f.internalEvaluate = g.internalEvaluate ∧
       f.internalInvert = g.internalInvert ∧
       f.internalIntegrate = g.internalIntegrate ∧
       f.internalInvertIntegral = g.internalInvertIntegral ∧
       f.internalHasVariable = g.internalHasVariable) := by
  match f, g with
  | .mk i1 e1 v1 g1 gi1 s1 t1 h1 m1, .mk i2 e2 v2 g2 gi2 s2 t2 h2 m2 =>
    rw [Formula.equals]
    simp only [Bool.and_eq_true, decide_eq_true_eq, List.all_eq_true, List.mem_attach,
      true_implies, Subtype.forall, Formula.inputs, Formula.internalEvaluate,
      Formula.internalInvert, Formula.internalIntegrate, Formula.internalInvertIntegral,
      Formula.internalHasVariable]
    constructor
    · rintro ⟨⟨⟨⟨⟨⟨hlen, hall⟩, he⟩, hv⟩, hg⟩, ht⟩, hh⟩
      refine ⟨hlen, ?_, he, hv, hg, ht, hh⟩
      intro p hp
      have := hall p hp
      cases p with
      | mk p1 p2 =>
        cases p1 <;> cases p2 <;> simp_all [sourcePairEq]
    · rintro ⟨hlen, hall, he, hv, hg, ht, hh⟩
      refine ⟨⟨⟨⟨⟨⟨hlen, ?_⟩, he⟩, hv⟩, hg⟩, ht⟩, hh⟩
      intro p hp
      have := hall p hp
      cases p with
      | mk p1 p2 =>
        cases p1 <;> cases p2 <;> simp_all [sourcePairEq]

/-- Reflexivity of `equals`, by strong induction on the tree size. -/
theorem equalsReflAux (n : ℕ) : ∀ f : Formula, sizeOf f ≤ n → f.equals f = true := by
  induction n with
  | zero =>
      intro f hle
      cases f with
      | mk i e v g gi s t h m =>
          simp at hle
  | succ n ih =>
      intro f hle
      cases f with
      | mk inputs e v g gi s t h m =>
          have hmem : ∀ gg : Formula, FormulaSource.formula gg ∈ inputs →
              gg.equals gg = true := by
            intro gg hgg
            apply ih
            have h1 := List.sizeOf_lt_of_mem hgg
            simp at h1 hle
            omega
          rw [Formula.equals_eq_true_iff]
          refine ⟨rfl, ?_, rfl, rfl, rfl, rfl, rfl⟩
          simp only [Formula.inputs]
          clear hle
          induction inputs with
          | nil => intro p hp; simp at hp
          | cons a as ihl =>
              intro p hp
              rw [List.zip_cons_cons] at hp
              rcases List.mem_cons.mp hp with hp1 | hp2
              · subst hp1
                cases a with
                | formula gg => exact hmem gg (List.mem_cons_self _ _)
                | value vv => rfl
              · exact ihl (fun gg hgg => hmem gg (List.mem_cons_of_mem _ hgg)) p hp2

/-- C10: structural equality behaves as specified: `f.equals f` is always
true; `add(a,b).equals(add(a,b))` is true for freshly built trees with equal
inputs; `add(a,b).equals(add(b,a))` is false for distinct leaf values; and
`equals` holds exactly when the input counts are equal, the inputs pairwise
match (recursively equal formulas or numerically equal leaf values), the
stored callback references are identical, and the has-variable flags are
identical. -/
theorem c10_structural_equality :
    (∀ f : Formula, f.equals f = true) ∧
    (∀ x y : FormulaSource, (Formula.add x y).equals (Formula.add x y) = true) ∧
    (∀ a b : ℚ, a ≠ b →
      (Formula.add (.value a) (.value b)).equals
        (Formula.add (.value b) (.value a)) = false) ∧
    (∀ f g : Formula, f.equals g = true ↔
      (f.inputs.length = g.inputs.length ∧
       (∀ p ∈ f.inputs.zip g.inputs, sourcePairEq p) ∧
       f.internalEvaluate = g.internalEvaluate ∧
       f.internalInvert = g.internalInvert ∧
       f.internalIntegrate = g.internalIntegrate ∧
       f.internalInvertIntegral = g.internalInvertIntegral ∧
       f.internalHasVariable = g.internalHasVariable)) := by
  refine ⟨fun f => equalsReflAux (sizeOf f) f le_rfl,
    fun x y => equalsReflAux _ _ le_rfl, ?_, Formula.equals_eq_true_iff⟩
  intro a b hab
  by_contra hne
  have htrue : (Formula.add (.value a) (.value b)).equals
      (Formula.add (.value b) (.value a)) = true := by
    cases hq : (Formula.add (.value a) (.value b)).equals
        (Formula.add (.value b) (.value a)) with
    | false => exact absurd hq hne
    | true => rfl
  rw [Formula.equals_eq_true_iff] at htrue
  obtain ⟨_, hall, _⟩ := htrue
  have hz : (Formula.add (.value a) (.value b)).inputs.zip
      (Formula.add (.value b) (.value a)).inputs =
      [(FormulaSource.value a, FormulaSource.value b),
       (FormulaSource.value b, FormulaSource.value a)] := rfl
  have hp : (FormulaSource.value a, FormulaSource.value b) ∈
      (Formula.add (.value a) (.value b)).inputs.zip
        (Formula.add (.value b) (.value a)).inputs := by
    rw [hz]
    exact List.mem_cons_self _ _
  have hpe := hall _ hp
  exact hab hpe

/-- C10 witness: reflexivity at a concrete tree and the swapped-arguments
case at the distinct leaf values `1` and `2`. -/
theorem c10_structural_equality_witness :
    (Formula.variable 0).equals (Formula.variable 0) = true ∧
    (Formula.add (.value 1) (.value 2)).equals
      (Formula.add (.value 2) (.value 1)) = false := by
  have h := c10_structural_equality
  exact ⟨h.1 _, h.2.2.1 1 2 (by norm_num)⟩
